import Mathlib

/-!
Verification development for the sales/invoicing backend: a shallow embedding
of the cache-aside generic service layer (`GenericService` over
`GenericRepository`), the sale-transaction orchestrator
(`SellService.processSales`) and the boundary error handler
(`middlewares/error-handler.ts`), together with theorems about the
behaviours the specification attributes to them.

Modelling conventions:
- JavaScript numbers are modelled as `Int` (identifiers, quantities) and
  `Rat` (decimal amounts); all amounts in the claims are exactly
  representable, so no floating-point rounding is involved.
- Values that cross `JSON.stringify` / `JSON.parse` are modelled as `Json`
  trees; a stringify-then-parse round trip on plain data returns a
  structurally equal tree, so the cache stores `Json` values directly.
- Thrown exceptions are modelled with `Except DomainError`; because the
  store writes performed before a throw persist, the stateful operations
  return the (possibly partially updated) state alongside the
  `Except` result.
- Asynchronous calls are sequential in the source (each `await` completes
  before the next statement); the embedding is the corresponding
  sequential function.
-/

namespace Crm

/-- Shape of a JavaScript value after a JSON round trip: strings, numbers,
arrays and objects (field list in insertion order). -/
inductive Json where
  | str : String → Json
  | num : Rat → Json
  | arr : List Json → Json
  | obj : List (String × Json) → Json

/-- Customer entity (`models/Customer.ts`): generated numeric id, unique
email, name fields, optional address and phone. The `bills` back-relation
is not part of the plain record payload. -/
structure Customer where
  id : Int
  email : String
  first_name : String
  last_name : String
  address : Option String := none
  phonenumber : Option String := none
deriving DecidableEq, Repr

/-- Product entity (`models/Product.ts`): generated id, unique name,
optional description, decimal price, integer stock. -/
structure Product where
  id : Int
  name : String
  description : Option String := none
  price : Rat
  available_quantity : Int
deriving DecidableEq, Repr

/-- Sale-line entity (`models/Sale.ts`, the `Sell` shape in
`models/Bill.ts`): product reference, quantity, sale price. The `bill`
back-reference is the owning bill and is left implicit to keep the record
non-circular. -/
structure SaleLine where
  product : Product
  quantity : Int
  sale_price : Rat
deriving DecidableEq, Repr

/-- A persisted Bill (`models/Bill.ts`): generated id, owning customer,
decimal total, owned sale lines. The `CreateDateColumn` timestamp comes
from the database clock and is not modelled. -/
structure SavedBill where
  id : Int
  customer : Customer
  total_amount : Rat
  sales : List SaleLine
deriving DecidableEq, Repr

/-- JSON value of a customer record, as produced by `JSON.stringify`
(optional fields absent when undefined). -/
def Customer.toJson (c : Customer) : Json :=
  .obj ([("id", .num (c.id : Rat)), ("email", .str c.email),
         ("first_name", .str c.first_name), ("last_name", .str c.last_name)]
    ++ (match c.address with | some a => [("address", Json.str a)] | none => [])
    ++ (match c.phonenumber with | some p => [("phonenumber", Json.str p)] | none => []))

/-- JSON value of a product record. -/
def Product.toJson (p : Product) : Json :=
  .obj ([("id", .num (p.id : Rat)), ("name", .str p.name)]
    ++ (match p.description with | some d => [("description", Json.str d)] | none => [])
    ++ [("price", .num p.price), ("available_quantity", .num (p.available_quantity : Rat))])

/-- JSON value of a sale line (without the circular bill back-reference). -/
def SaleLine.toJson (s : SaleLine) : Json :=
  .obj [("product", s.product.toJson), ("quantity", .num (s.quantity : Rat)),
        ("sale_price", .num s.sale_price)]

/-- JSON value of a persisted bill. -/
def SavedBill.toJson (b : SavedBill) : Json :=
  .obj [("id", .num (b.id : Rat)), ("customer", b.customer.toJson),
        ("total_amount", .num b.total_amount),
        ("sales", .arr (b.sales.map SaleLine.toJson))]

/-- Domain error kinds raised by the code paths modelled here
(`errors/NotFoundError.ts`, `errors/AuthError.ts` `BaseAppException`,
`errors/DatabaseError.ts`); each carries its message payload. -/
inductive DomainError where
  | notFound (resource : String)
  | baseApp (message : String)
  | database (message : String) (details : String)
deriving DecidableEq, Repr

/-- HTTP status carried by each domain error kind: `NotFoundError` is 404,
`BaseAppException` and `DatabaseError` default to 500. -/
def DomainError.statusCode : DomainError → Nat
  | .notFound _ => 404
  | .baseApp _ => 500
  | .database _ _ => 500

/-- One cache entry: key, serialized value, TTL in seconds
(`utils/cacheUtil.ts` stores strings; the string content is the `Json`
value it encodes). -/
abbrev CacheEntry := String × Json × Nat

/-- Cache state, most recent write first (last write wins on a key). -/
abbrev CacheState := List CacheEntry

/-- `cache.set(key, value, ttl)`: write the entry; a later write to the
same key shadows the earlier one. -/
def cacheSet (cache : CacheState) (key : String) (value : Json) (ttl : Nat) : CacheState :=
  (key, value, ttl) :: cache

/-- `cache.get(key)`: most recent value written under `key`, if any. -/
def cacheGet (cache : CacheState) (key : String) : Option Json :=
  match cache.find? (fun e => e.1 == key) with
  | some e => some e.2.1
  | none => none

/-- `cache.delete(key)`: drop every entry under `key`. -/
def cacheDelete (cache : CacheState) (key : String) : CacheState :=
  cache.filter (fun e => !(e.1 == key))

/-- Whole-system state: the relational store (customers, products, bills
with their generated-id counters), the shared cache, and the object-storage
bucket holding uploaded receipt names. -/
structure St where
  customers : List Customer
  products : List Product
  bills : List SavedBill
  nextCustomerId : Int
  nextBillId : Int
  cache : CacheState
  s3 : List String

/-- Empty system state. -/
def St.empty : St :=
  { customers := [], products := [], bills := [], nextCustomerId := 1,
    nextBillId := 1, cache := [], s3 := [] }

/-- `GenericRepository.findEntityById` for the customers table:
findOneBy by primary key, and when no row matches the repository throws
NotFoundError with resource string Entity (it never resolves to null; the
IRepository doc saying it returns null is contradicted by the
implementation and by its own unit tests). -/
def findEntityByIdCustomer (customers : List Customer) (id : Int) :
    Except DomainError Customer :=
  match customers.find? (fun c => c.id == id) with
  | some c => .ok c
  | none => .error (.notFound "Entity")

/-- `GenericRepository.findEntityById` for the products table; same
throw-on-miss behaviour. -/
def findEntityByIdProduct (products : List Product) (id : Int) :
    Except DomainError Product :=
  match products.find? (fun p => p.id == id) with
  | some p => .ok p
  | none => .error (.notFound "Entity")

/-- `GenericRepository.updateEntity` for the products table:
repo.update affects the row with the given primary key; when no row is
affected it throws NotFoundError with resource string Entity, otherwise
the updated row is re-read and returned; here the table with the row
replaced is returned. -/
def updateEntityProduct (products : List Product) (id : Int) (updated : Product) :
    Except DomainError (List Product) :=
  if products.any (fun p => p.id == id) then
    .ok (products.map (fun p => if p.id == id then updated else p))
  else
    .error (.notFound "Entity")

/-- `GenericService.save` as instantiated by `CustomerService`
(entity name string is customer): persist via
`GenericRepository.createEntity` (the store assigns the next generated id),
then, only when the persisted id is truthy (a JavaScript number is falsy
exactly when it is 0 or NaN; here: nonzero), write the serialized entity
through to the cache under the customer:id key with TTL 3600. Returns the
persisted entity (as its JSON value tree) in every case. -/
def customerSave (st : St) (entity : Customer) : Except DomainError Json × St :=
  let savedEntity : Customer := { entity with id := st.nextCustomerId }
  let st1 : St := { st with customers := st.customers ++ [savedEntity],
                            nextCustomerId := st.nextCustomerId + 1 }
  if savedEntity.id ≠ 0 then
    (.ok savedEntity.toJson,
     { st1 with cache := cacheSet st1.cache ("customer:" ++ toString savedEntity.id)
                  savedEntity.toJson 3600 })
  else
    (.ok savedEntity.toJson, st1)

/-- `GenericService.findById` as instantiated by `CustomerService`:
cache lookup under customer:id first; on a hit return the
JSON.parse of the cached string without touching the store; on a miss call
`GenericRepository.findEntityById` (which throws NotFoundError when the
store has no such row — that exception propagates out of findById), and on
a found row write it through to the cache with TTL 3600 and return it. -/
def customerFindById (st : St) (id : Int) : Except DomainError Json × St :=
  let cacheKey := "customer:" ++ toString id
  match cacheGet st.cache cacheKey with
  | some cached => (.ok cached, st)
  | none =>
    match findEntityByIdCustomer st.customers id with
    | .error e => (.error e, st)
    | .ok entity =>
      (.ok entity.toJson,
       { st with cache := cacheSet st.cache cacheKey entity.toJson 3600 })

/-- `GenericService.findAll` as instantiated by `CustomerService`: cache
lookup under customer:all; on a miss read every row, and cache the result
with TTL 3600 only when at least one row came back; the (possibly empty)
row list is returned either way. -/
def customerFindAll (st : St) : Except DomainError Json × St :=
  let cacheKey := "customer:all"
  match cacheGet st.cache cacheKey with
  | some cached => (.ok cached, st)
  | none =>
    let entities := st.customers
    if entities.length > 0 then
      (.ok (Json.arr (entities.map Customer.toJson)),
       { st with cache := cacheSet st.cache cacheKey
                   (Json.arr (entities.map Customer.toJson)) 3600 })
    else
      (.ok (Json.arr (entities.map Customer.toJson)), st)

/-- The pagination cache key customer:pagination:skip=S:take=T. -/
def paginationKey (skip takeN : Nat) : String :=
  "customer:pagination:skip=" ++ toString skip ++ ":take=" ++ toString takeN

/-- The data/count object returned by
`GenericRepository.getEntitiesWithPagination` (findAndCount with skip and
take), as a JSON value. -/
def paginationResult (customers : List Customer) (skip takeN : Nat) : Json :=
  .obj [("data", .arr (((customers.drop skip).take takeN).map Customer.toJson)),
        ("count", .num (customers.length : Rat))]

/-- `GenericService.findPaginated` as instantiated by `CustomerService`:
cache lookup under the pagination key; on a miss run findAndCount, and
cache the result object with TTL 3600 only when the data page is
non-empty; the result object is returned either way. -/
def customerFindPaginated (st : St) (skip takeN : Nat) : Except DomainError Json × St :=
  let cacheKey := paginationKey skip takeN
  match cacheGet st.cache cacheKey with
  | some cached => (.ok cached, st)
  | none =>
    let data := (st.customers.drop skip).take takeN
    if data.length > 0 then
      (.ok (paginationResult st.customers skip takeN),
       { st with cache := cacheSet st.cache cacheKey
                   (paginationResult st.customers skip takeN) 3600 })
    else
      (.ok (paginationResult st.customers skip takeN), st)

/-- One requested line of `ProcessSalesDTO` (`SellService.ts`). -/
structure SaleItemDTO where
  productId : Int
  quantity : Int
  sale_price : Rat
deriving DecidableEq, Repr

/-- `ProcessSalesDTO`: one customer id and the requested line items. -/
structure ProcessSalesDTO where
  customerId : Int
  sales : List SaleItemDTO
deriving DecidableEq, Repr

/-- Step 3 of `SellService.processSales`, one iteration per requested line
in request order: resolve the product (the repository throws NotFoundError
on a missing id — the in-service null check is unreachable), throw
BaseAppException when available_quantity < quantity, otherwise decrement
the stock and persist it immediately via updateEntity, append the sale
line, and accumulate sale_price * quantity into the running total. On a
throw the products table keeps every decrement already persisted by
earlier iterations. -/
def processItems (products : List Product) (sales : List SaleLine) (total : Rat) :
    List SaleItemDTO → Except DomainError (List SaleLine × Rat) × List Product
  | [] => (.ok (sales, total), products)
  | item :: rest =>
    match findEntityByIdProduct products item.productId with
    | .error e => (.error e, products)
    | .ok product =>
      if product.available_quantity < item.quantity then
        (.error (.baseApp ("Insufficient stock for product " ++ product.name)), products)
      else
        let product' : Product :=
          { product with available_quantity := product.available_quantity - item.quantity }
        match updateEntityProduct products item.productId product' with
        | .error e => (.error e, products)
        | .ok products' =>
          let sale : SaleLine :=
            { product := product', quantity := item.quantity, sale_price := item.sale_price }
          processItems products' (sales ++ [sale])
            (total + item.sale_price * (item.quantity : Rat)) rest

/-- `SellService.processSales`: resolve the customer (the repository throws
NotFoundError on a missing id — the in-service null check is unreachable),
open a bill shell with zero total and no lines, process each requested
line (see `processItems`), persist the bill with its cascaded lines as one
store write, upload the rendered receipt to object storage under a name
derived from the customer (the timestamp suffix comes from the database
clock and is not modelled), cache the saved bill under bill:id
with TTL 3600, and return true. Any throw leaves the store writes already
performed in place and propagates the domain error. -/
def processSales (st : St) (dto : ProcessSalesDTO) : Except DomainError Bool × St :=
  match findEntityByIdCustomer st.customers dto.customerId with
  | .error e => (.error e, st)
  | .ok customer =>
    match processItems st.products [] 0 dto.sales with
    | (.error e, products') => (.error e, { st with products := products' })
    | (.ok (sales, total), products') =>
      let savedBill : SavedBill :=
        { id := st.nextBillId, customer := customer, total_amount := total, sales := sales }
      let fileName := customer.first_name ++ "-" ++ customer.last_name ++ "-bill.html"
      (.ok true,
       { st with
          products := products'
          bills := st.bills ++ [savedBill]
          nextBillId := st.nextBillId + 1
          s3 := st.s3 ++ [fileName]
          cache := cacheSet st.cache ("bill:" ++ toString savedBill.id)
                     savedBill.toJson 3600 })

/-- Run a list of sale requests strictly sequentially, each against the
state left by the previous one (keeping the state whether or not the
individual call succeeded). -/
def runAll (st : St) (dtos : List ProcessSalesDTO) : St :=
  dtos.foldl (fun s dto => (processSales s dto).2) st

/-- Non-negativity of every stock in a product table. -/
def stocksNonneg (products : List Product) : Prop :=
  ∀ p ∈ products, 0 ≤ p.available_quantity

/-- Sum of sale_price times quantity over a list of sale lines. -/
def sumLines (sales : List SaleLine) : Rat :=
  (sales.map (fun s => s.sale_price * (s.quantity : Rat))).sum

/-- `sellValidation` (`utils/inputValidation.ts`) on a ProcessSalesDTO:
sales must be a non-empty array, each quantity a positive integer, each
sale_price a positive number (the numeric-field checks hold by typing in
this embedding). -/
def sellValidationOk (dto : ProcessSalesDTO) : Bool :=
  !dto.sales.isEmpty &&
    dto.sales.all (fun s => decide (0 < s.quantity) && decide (0 < s.sale_price))

/-- An error value reaching the boundary `errorHandler` middleware:
an instance of a `CustomError` subclass (statusCode, message, optional
metadata), a typeorm QueryFailedError (message), a typeorm
EntityNotFoundError, or any other thrown value. -/
inductive ThrownError where
  | custom (statusCode : Nat) (message : String) (metadata : Option Json)
  | queryFailed (message : String)
  | entityNotFound
  | otherValue

/-- Whether the thrown value is an instance of CustomError. -/
def ThrownError.isCustomError : ThrownError → Bool
  | .custom _ _ _ => true
  | _ => false

/-- The HTTP envelope built by `ResponseTemplate`: statusCode, status
string, message, and metadata only when it was passed. -/
structure HttpResponse where
  statusCode : Nat
  status : String
  message : String
  metadata : Option Json

/-- The boundary `errorHandler` (`middlewares/error-handler.ts`):
a CustomError is rendered with its own statusCode and with metadata only
when the error carries it; a typeorm QueryFailedError is rendered as 400
Database query error with the raw message as metadata; a typeorm
EntityNotFoundError as 404 with no metadata; every other value falls back
to 500 Internal Server Error with no metadata. -/
def errorHandler : ThrownError → HttpResponse
  | .custom sc msg md =>
    match md with
    | some m => { statusCode := sc, status := "ERROR", message := msg, metadata := some m }
    | none => { statusCode := sc, status := "ERROR", message := msg, metadata := none }
  | .queryFailed msg =>
    { statusCode := 400, status := "ERROR", message := "Database query error",
      metadata := some (.str msg) }
  | .entityNotFound =>
    { statusCode := 404, status := "ERROR", message := "Requested resource not found",
      metadata := none }
  | .otherValue =>
    { statusCode := 500, status := "ERROR", message := "Internal Server Error",
      metadata := none }

/-- Concrete customer used by the example scenarios. -/
def exCustomer : Customer :=
  { id := 1, email := "a@b.com", first_name := "Ada", last_name := "Byron" }

/-- Concrete product with stock 5 and catalog price 10.00. -/
def exProductA : Product :=
  { id := 1, name := "A", price := 10, available_quantity := 5 }

/-- Concrete second product with stock 1. -/
def exProductB : Product :=
  { id := 2, name := "B", price := 4, available_quantity := 1 }

/-- Store holding the example customer and product A, with empty cache. -/
def exSt : St :=
  { customers := [exCustomer], products := [exProductA], bills := [],
    nextCustomerId := 2, nextBillId := 1, cache := [], s3 := [] }

/-- Store holding the example customer and both products. -/
def exStTwo : St :=
  { exSt with products := [exProductA, exProductB] }

/-- The concrete sale request of the specification scenario: one line,
quantity 3, sale price 12.00. -/
def exDto : ProcessSalesDTO :=
  { customerId := 1, sales := [{ productId := 1, quantity := 3, sale_price := 12 }] }

/-- Two-line request whose second line exceeds the stock of product B. -/
def exDtoTwo : ProcessSalesDTO :=
  { customerId := 1,
    sales := [{ productId := 1, quantity := 3, sale_price := 12 },
              { productId := 2, quantity := 3, sale_price := 5 }] }

/-- Sale request with an empty line list (type-correct for processSales;
rejected by sellValidation at the boundary). -/
def exDtoEmpty : ProcessSalesDTO := { customerId := 1, sales := [] }

/-- State whose cache already holds the example customer under its key and
whose store is empty. -/
def exStHit : St :=
  { St.empty with cache := cacheSet [] "customer:1" exCustomer.toJson 3600 }

/-- State whose next generated customer id is 0 (a falsy JavaScript
number), exercising the save write-through guard. -/
def exStZeroId : St := { St.empty with nextCustomerId := 0 }

/-- A write is immediately readable: get after set on the same key. -/
theorem cacheGet_set_same (cache : CacheState) (key : String) (value : Json) (ttl : Nat) :
    cacheGet (cacheSet cache key value ttl) key = some value := by
  simp [cacheGet, cacheSet, List.find?]

/-- find? skips a prefix on which the predicate is everywhere false. -/
theorem find?_append_of_none {α} (p : α → Bool) (l₁ l₂ : List α)
    (h : ∀ x ∈ l₁, p x = false) :
    List.find? p (l₁ ++ l₂) = List.find? p l₂ := by
  induction l₁ with
  | nil => rfl
  | cons a l ih =>
    have ha : p a = false := h a (by simp)
    simpa [List.find?, ha] using ih (fun x hx => h x (by simp [hx]))

/-- Appending one line adds its amount to the running sum. -/
theorem sumLines_append_single (l : List SaleLine) (s : SaleLine) :
    sumLines (l ++ [s]) = sumLines l + s.sale_price * (s.quantity : Rat) := by
  simp [sumLines]

/-- The per-line loop keeps the running total equal to the sum over the
accumulated lines. -/
theorem processItems_total (items : List SaleItemDTO) :
    ∀ products sales total salesOut totalOut productsOut,
      processItems products sales total items = (.ok (salesOut, totalOut), productsOut) →
      total = sumLines sales →
      totalOut = sumLines salesOut := by
  induction items with
  | nil =>
    intro products sales total salesOut totalOut productsOut h hbase
    simp only [processItems, Prod.mk.injEq, Except.ok.injEq] at h
    obtain ⟨⟨hs, ht⟩, -⟩ := h
    rw [← hs, ← ht]; exact hbase
  | cons item rest ih =>
    intro products sales total salesOut totalOut productsOut h hbase
    rw [processItems] at h
    split at h
    · simp at h
    · split at h
      · simp at h
      · simp only [] at h
        split at h
        · simp at h
        · exact ih _ _ _ _ _ _ h (by rw [sumLines_append_single, ← hbase])

/-- The per-line loop appends exactly one line per processed item. -/
theorem processItems_length (items : List SaleItemDTO) :
    ∀ products sales total salesOut totalOut productsOut,
      processItems products sales total items = (.ok (salesOut, totalOut), productsOut) →
      salesOut.length = sales.length + items.length := by
  induction items with
  | nil =>
    intro products sales total salesOut totalOut productsOut h
    simp only [processItems, Prod.mk.injEq, Except.ok.injEq] at h
    obtain ⟨⟨hs, -⟩, -⟩ := h
    rw [← hs]; simp
  | cons item rest ih =>
    intro products sales total salesOut totalOut productsOut h
    rw [processItems] at h
    split at h
    · simp at h
    · split at h
      · simp at h
      · simp only [] at h
        split at h
        · simp at h
        · have := ih _ _ _ _ _ _ h
          simp only [List.length_append, List.length_cons, List.length_nil] at this ⊢
          omega

/-- The per-line loop preserves non-negativity of every stock: a decrement
happens only on the branch where the stock check passed. -/
theorem processItems_stock_nonneg (items : List SaleItemDTO) :
    ∀ products sales total,
      (∀ p ∈ products, 0 ≤ p.available_quantity) →
      ∀ q ∈ (processItems products sales total items).2, 0 ≤ q.available_quantity := by
  induction items with
  | nil =>
    intro products sales total h q hq
    simp only [processItems] at hq
    exact h q hq
  | cons item rest ih =>
    intro products sales total h q hq
    rw [processItems] at hq
    split at hq
    · exact h q hq
    · rename_i product heqfind
      split at hq
      · exact h q hq
      · rename_i hlt
        simp only [] at hq
        split at hq
        · exact h q hq
        · rename_i products2 hupd
          refine ih products2 _ _ ?_ q hq
          intro p2 hp2
          unfold updateEntityProduct at hupd
          split at hupd
          · obtain rfl : products.map (fun p => if p.id == item.productId then
                { product with available_quantity := product.available_quantity - item.quantity }
                else p) = products2 := by simpa using hupd
            obtain ⟨p0, hp0, hp0eq⟩ := List.mem_map.mp hp2
            by_cases hpid : (p0.id == item.productId) = true
            · rw [if_pos hpid] at hp0eq
              rw [← hp0eq]
              have hle : item.quantity ≤ product.available_quantity := le_of_not_lt hlt
              simpa using sub_nonneg.mpr hle
            · rw [if_neg hpid] at hp0eq
              rw [← hp0eq]
              exact h p0 hp0
          · simp at hupd

/-- One processSales call preserves non-negative stocks, whether or not it
succeeds (every decrement it persists was guarded by the stock check). -/
theorem processSales_stock_nonneg (st : St) (dto : ProcessSalesDTO)
    (h : ∀ p ∈ st.products, 0 ≤ p.available_quantity) :
    ∀ q ∈ (processSales st dto).2.products, 0 ≤ q.available_quantity := by
  intro q hq
  unfold processSales at hq
  split at hq
  · exact h q hq
  · rename_i customer heqc
    split at hq
    · rename_i e products2 heqp
      have hall := processItems_stock_nonneg dto.sales st.products [] 0 h
      rw [heqp] at hall
      exact hall q hq
    · rename_i sales total products2 heqp
      have hall := processItems_stock_nonneg dto.sales st.products [] 0 h
      rw [heqp] at hall
      exact hall q hq

/-- C1 (evaluation at the failing input): on the two-line request whose
second line exceeds the stock of product B, processSales throws the
insufficient-stock BaseAppException and persists no bill and leaves the
stock of product B unchanged at 1, but the stock of product A from the
already-processed first line stays decremented from 5 to 2 — there is no
rollback, contradicting the no-partial-commit clause of the claim (which
would require the final stocks to be the initial 5 and 1). -/
theorem sale_insufficient_stock_no_rollback :
    (processSales exStTwo exDtoTwo).1
      = .error (.baseApp "Insufficient stock for product B") ∧
    (processSales exStTwo exDtoTwo).2.bills = [] ∧
    (processSales exStTwo exDtoTwo).2.products.map Product.available_quantity = [2, 1] ∧
    (processSales exStTwo exDtoTwo).2.products.map Product.available_quantity ≠
      exStTwo.products.map Product.available_quantity :=
  ⟨rfl, rfl, rfl, by decide⟩

/-- C2: for every sale request that processSales completes successfully,
the bill persisted by the call has total_amount equal to the sum of
sale_price times quantity over its sale lines; the witness instantiates
the concrete scenario of the specification (one line of quantity 3 at
sale price 12.00 against stock 5, giving total 36.00 and stock 2). -/
theorem bill_total_equals_sum_of_lines (st : St) (dto : ProcessSalesDTO)
    (b : Bool) (st2 : St) (h : processSales st dto = (.ok b, st2)) :
    ∃ bill, st2.bills = st.bills ++ [bill] ∧
      bill.total_amount = sumLines bill.sales := by
  unfold processSales at h
  split at h
  · simp at h
  · rename_i customer heqc
    split at h
    · simp at h
    · rename_i sales total products2 heqp
      have htotal : total = sumLines sales :=
        processItems_total dto.sales st.products [] 0 sales total products2 heqp
          (by simp [sumLines])
      simp only [] at h
      rw [Prod.mk.injEq] at h
      obtain ⟨-, h2⟩ := h
      subst h2
      exact ⟨_, rfl, htotal⟩

/-- Witness for the C2 theorem at the concrete scenario of the
specification: total 36.00, remaining stock 2. -/
theorem bill_total_equals_sum_of_lines_witness :
    (∃ bill, (processSales exSt exDto).2.bills = exSt.bills ++ [bill] ∧
       bill.total_amount = sumLines bill.sales) ∧
    (processSales exSt exDto).2.bills.map SavedBill.total_amount = [36] ∧
    (processSales exSt exDto).2.products.map Product.available_quantity = [2] := by
  refine ⟨bill_total_equals_sum_of_lines exSt exDto true (processSales exSt exDto).2 ?_,
    ?_, rfl⟩
  · have h1 : (processSales exSt exDto).1 = Except.ok true := rfl
    conv_lhs => rw [← Prod.mk.eta (p := processSales exSt exDto)]
    rw [h1]
  · norm_num [processSales, processItems, findEntityByIdCustomer, findEntityByIdProduct,
      updateEntityProduct, exSt, exDto, exCustomer, exProductA, cacheSet]

/-- C7: starting from a product table whose stocks are all non-negative,
after any sequence of sequentially executed processSales calls every stock
is still non-negative (proved for arbitrary sequences, which subsumes the
sequences of successful calls named by the claim). -/
theorem stocks_nonneg_after_sales (st : St) (dtos : List ProcessSalesDTO)
    (h : stocksNonneg st.products) :
    stocksNonneg (runAll st dtos).products := by
  induction dtos generalizing st with
  | nil => simpa [runAll] using h
  | cons dto rest ih =>
    have h1 : stocksNonneg (processSales st dto).2.products :=
      processSales_stock_nonneg st dto h
    simpa [runAll, List.foldl_cons] using ih (processSales st dto).2 h1

/-- Witness for the C7 theorem: the example store run through the
successful scenario sale followed by a second request. -/
theorem stocks_nonneg_after_sales_witness :
    stocksNonneg (runAll exSt [exDto, exDtoTwo]).products :=
  stocks_nonneg_after_sales exSt [exDto, exDtoTwo]
    (by intro p hp; simp [exSt] at hp; subst hp; norm_num [exProductA])

/-- C8: when no stored customer has the requested customer id,
processSales fails with the 404 NotFoundError thrown by the repository
lookup and returns the state completely unchanged: no stock update, no
bill, no sale lines, no cache or object-storage writes. -/
theorem processSales_unknown_customer_404 (st : St) (dto : ProcessSalesDTO)
    (h : ∀ c ∈ st.customers, c.id ≠ dto.customerId) :
    processSales st dto = (.error (.notFound "Entity"), st) ∧
    (DomainError.notFound "Entity").statusCode = 404 := by
  have hfind : st.customers.find? (fun c => c.id == dto.customerId) = none := by
    rw [List.find?_eq_none]
    intro c hc
    simpa using h c hc
  refine ⟨?_, rfl⟩
  unfold processSales findEntityByIdCustomer
  rw [hfind]

/-- Witness for the C8 theorem: the empty store knows no customer, so the
scenario request fails with 404 and the state is untouched. -/
theorem processSales_unknown_customer_404_witness :
    processSales St.empty exDto = (.error (.notFound "Entity"), St.empty) ∧
    (DomainError.notFound "Entity").statusCode = 404 :=
  processSales_unknown_customer_404 St.empty exDto
    (by intro c hc; simp [St.empty] at hc)


/-- C9 counterexample: processSales called on a request whose sales array
is empty succeeds and persists a bill with zero sale lines, so the claim
is false for unvalidated requests reaching processSales directly. -/
theorem zero_line_bill_cex :
    (processSales exSt exDtoEmpty).1 = .ok true ∧
    (processSales exSt exDtoEmpty).2.bills.map (fun b => b.sales.length) = [0] :=
  ⟨rfl, rfl⟩

/-- C9 amended: for every sale request accepted by sellValidation (which
requires a non-empty sales array) on which processSales persists a bill,
the persisted bill has at least one sale line. -/
theorem validated_sale_bill_has_lines (st : St) (dto : ProcessSalesDTO)
    (hval : sellValidationOk dto = true) (b : Bool) (st2 : St)
    (h : processSales st dto = (.ok b, st2)) :
    ∃ bill, st2.bills = st.bills ++ [bill] ∧ 0 < bill.sales.length := by
  have hne : dto.sales ≠ [] := by
    intro hnil
    rw [sellValidationOk, hnil] at hval
    simp at hval
  unfold processSales at h
  split at h
  · simp at h
  · rename_i customer heqc
    split at h
    · simp at h
    · rename_i sales total products2 heqp
      have hlen := processItems_length dto.sales st.products [] 0 sales total products2 heqp
      simp only [] at h
      rw [Prod.mk.injEq] at h
      obtain ⟨-, h2⟩ := h
      subst h2
      refine ⟨_, rfl, ?_⟩
      rw [hlen]
      simpa using List.length_pos.mpr hne

/-- Witness for the amended C9 theorem at the scenario request, which
passes sellValidation. -/
theorem validated_sale_bill_has_lines_witness :
    sellValidationOk exDto = true ∧
    (∃ bill, (processSales exSt exDto).2.bills = exSt.bills ++ [bill] ∧
      0 < bill.sales.length) := by
  have hval : sellValidationOk exDto = true := by
    simp [sellValidationOk, exDto]
  refine ⟨hval, validated_sale_bill_has_lines exSt exDto hval true
    (processSales exSt exDto).2 ?_⟩
  have h1 : (processSales exSt exDto).1 = Except.ok true := rfl
  conv_lhs => rw [← Prod.mk.eta (p := processSales exSt exDto)]
  rw [h1]

/-- C3 counterexample: with an empty cache and an empty store, findById
does not return an empty (null) result — the NotFoundError (404) thrown
by the repository propagates out of it. -/
theorem findById_store_miss_raises_cex :
    (customerFindById St.empty 1).1 = .error (.notFound "Entity") ∧
    (DomainError.notFound "Entity").statusCode = 404 :=
  ⟨rfl, rfl⟩

/-- C3 amended: findById consults the cache first and on a hit returns the
deserialized cached value with the state unchanged and without touching
the store (the result is the same for every store content); on a miss it
reads the store, and when the store holds no entity with that id the 404
NotFoundError thrown by the repository propagates (rather than a null
result being returned). -/
theorem findById_cache_first_miss_raises (st : St) (id : Int) :
    (∀ j, cacheGet st.cache ("customer:" ++ toString id) = some j →
      ∀ cs, customerFindById { st with customers := cs } id
        = (.ok j, { st with customers := cs })) ∧
    (cacheGet st.cache ("customer:" ++ toString id) = none →
      (∀ c ∈ st.customers, c.id ≠ id) →
      customerFindById st id = (.error (.notFound "Entity"), st)) := by
  constructor
  · intro j hj cs
    unfold customerFindById
    simp only []
    rw [show ({ st with customers := cs } : St).cache = st.cache from rfl, hj]
  · intro hmiss habs
    have hfind : st.customers.find? (fun c => c.id == id) = none := by
      rw [List.find?_eq_none]
      intro c hc
      simpa using habs c hc
    unfold customerFindById findEntityByIdCustomer
    simp only []
    rw [hmiss, hfind]

/-- Witness for the amended C3 theorem: a cache holding the example
customer serves the hit without consulting the (here empty) store. -/
theorem findById_cache_hit_witness :
    customerFindById { exStHit with customers := [] } 1
      = (.ok exCustomer.toJson, { exStHit with customers := [] }) :=
  (findById_cache_first_miss_raises exStHit 1).1 exCustomer.toJson rfl []


/-- C4: after a successful save (with a truthy generated id that is fresh
in the store), findById of that id returns a value deep-equal to the saved
entity, both when served from the cache written through by save (the
JSON stringify/parse round trip preserves the value tree) and when served
from the store with the cache cleared. -/
theorem findById_after_save_roundtrip (st : St) (c : Customer)
    (hid : st.nextCustomerId ≠ 0)
    (hfresh : ∀ c2 ∈ st.customers, c2.id ≠ st.nextCustomerId) :
    (customerSave st c).1 = .ok ({ c with id := st.nextCustomerId } : Customer).toJson ∧
    (customerFindById (customerSave st c).2 st.nextCustomerId).1
      = .ok ({ c with id := st.nextCustomerId } : Customer).toJson ∧
    (customerFindById { (customerSave st c).2 with cache := [] } st.nextCustomerId).1
      = .ok ({ c with id := st.nextCustomerId } : Customer).toJson := by
  have hsave : customerSave st c
      = (.ok ({ c with id := st.nextCustomerId } : Customer).toJson,
        { st with customers := st.customers ++ [{ c with id := st.nextCustomerId }],
                  nextCustomerId := st.nextCustomerId + 1,
                  cache := cacheSet st.cache ("customer:" ++ toString st.nextCustomerId)
                    ({ c with id := st.nextCustomerId } : Customer).toJson 3600 }) := by
    unfold customerSave
    simp only []
    rw [if_pos hid]
  refine ⟨by rw [hsave], ?_, ?_⟩
  · rw [hsave]
    unfold customerFindById
    simp only []
    rw [cacheGet_set_same]
  · rw [hsave]
    unfold customerFindById
    simp only [cacheGet, List.find?]
    unfold findEntityByIdCustomer
    rw [find?_append_of_none _ st.customers _
      (fun c2 hc2 => by simpa using hfresh c2 hc2)]
    simp [List.find?]

/-- Witness for the C4 theorem: saving the example customer into the empty
store and reading it back through both paths. -/
theorem findById_after_save_roundtrip_witness :
    (customerSave St.empty exCustomer).1
      = .ok ({ exCustomer with id := St.empty.nextCustomerId } : Customer).toJson ∧
    (customerFindById (customerSave St.empty exCustomer).2 St.empty.nextCustomerId).1
      = .ok ({ exCustomer with id := St.empty.nextCustomerId } : Customer).toJson ∧
    (customerFindById { (customerSave St.empty exCustomer).2 with cache := [] }
        St.empty.nextCustomerId).1
      = .ok ({ exCustomer with id := St.empty.nextCustomerId } : Customer).toJson :=
  findById_after_save_roundtrip St.empty exCustomer (by decide)
    (by intro c2 hc2; simp [St.empty] at hc2)

/-- C5 counterexample: a typeorm QueryFailedError is not a CustomError,
yet the handler renders it as a 400 envelope carrying the raw message as
metadata — not as the unclassified metadata-free 500 the claim requires
for every non-CustomError value. -/
theorem errorHandler_queryFailed_cex :
    (ThrownError.queryFailed "boom").isCustomError = false ∧
    (errorHandler (.queryFailed "boom")).statusCode = 400 ∧
    (errorHandler (.queryFailed "boom")).metadata = some (.str "boom") :=
  ⟨rfl, rfl, rfl⟩

/-- C5 amended: a CustomError is rendered with its own statusCode and with
metadata exactly when it carries some; of the non-CustomError values, a
typeorm QueryFailedError is rendered as 400 with its message as metadata
and a typeorm EntityNotFoundError as 404 without metadata, and every other
value falls back to the unclassified 500 envelope with no metadata. -/
theorem errorHandler_envelope_mapping :
    (∀ sc msg (md : Json), errorHandler (.custom sc msg (some md))
        = ⟨sc, "ERROR", msg, some md⟩) ∧
    (∀ sc msg, errorHandler (.custom sc msg none) = ⟨sc, "ERROR", msg, none⟩) ∧
    (∀ msg, errorHandler (.queryFailed msg)
        = ⟨400, "ERROR", "Database query error", some (.str msg)⟩) ∧
    errorHandler .entityNotFound = ⟨404, "ERROR", "Requested resource not found", none⟩ ∧
    errorHandler .otherValue = ⟨500, "ERROR", "Internal Server Error", none⟩ :=
  ⟨fun _ _ _ => rfl, fun _ _ => rfl, fun _ => rfl, rfl, rfl⟩

/-- Witness for the amended C5 theorem at a concrete domain error. -/
theorem errorHandler_envelope_witness :
    errorHandler (.custom 404 "Entity not found" none)
      = ⟨404, "ERROR", "Entity not found", none⟩ :=
  errorHandler_envelope_mapping.2.1 404 "Entity not found"

/-- C6: on a cache miss, findAll caches its result under customer:all with
TTL 3600 and findPaginated under the skip/take pagination key with TTL
3600, except that when the store returns an empty result set (zero rows,
or an empty data page) no cache write is performed and the state is
unchanged. -/
theorem list_queries_cache_policy (st : St) (skip takeN : Nat) :
    (cacheGet st.cache "customer:all" = none →
      (st.customers.length > 0 →
        (customerFindAll st).2.cache
          = cacheSet st.cache "customer:all"
              (Json.arr (st.customers.map Customer.toJson)) 3600) ∧
      (st.customers.length = 0 → (customerFindAll st).2 = st)) ∧
    (cacheGet st.cache (paginationKey skip takeN) = none →
      (((st.customers.drop skip).take takeN).length > 0 →
        (customerFindPaginated st skip takeN).2.cache
          = cacheSet st.cache (paginationKey skip takeN)
              (paginationResult st.customers skip takeN) 3600) ∧
      (((st.customers.drop skip).take takeN).length = 0 →
        (customerFindPaginated st skip takeN).2 = st)) := by
  constructor
  · intro hmiss
    constructor
    · intro hlen
      unfold customerFindAll
      simp only []
      rw [hmiss, if_pos hlen]
    · intro hlen
      unfold customerFindAll
      simp only []
      rw [hmiss, if_neg (by omega)]
  · intro hmiss
    constructor
    · intro hlen
      unfold customerFindPaginated
      simp only []
      rw [hmiss, if_pos hlen]
    · intro hlen
      unfold customerFindPaginated
      simp only []
      rw [hmiss, if_neg (by omega)]

/-- Witness for the C6 theorem: a one-customer store on a miss writes the
customer:all entry; the empty store on a miss leaves the state unchanged. -/
theorem list_queries_cache_policy_witness :
    (customerFindAll exSt).2.cache
      = cacheSet exSt.cache "customer:all"
          (Json.arr (exSt.customers.map Customer.toJson)) 3600 ∧
    (customerFindPaginated St.empty 0 2).2 = St.empty :=
  ⟨((list_queries_cache_policy exSt 0 2).1 rfl).1 (by decide),
   ((list_queries_cache_policy St.empty 0 2).2 rfl).2 rfl⟩

/-- C10: when the id the store assigns to a persisted entity is falsy
(zero), save still returns the persisted entity but skips the cache
write-through, leaving the cache unchanged; the customer:id key is written
exactly when the persisted id is truthy. -/
theorem save_falsy_id_skips_cache (st : St) (c : Customer) :
    (st.nextCustomerId = 0 →
      customerSave st c = (.ok ({ c with id := 0 } : Customer).toJson,
        { st with
            customers := st.customers ++ [{ c with id := 0 }]
            nextCustomerId := 1 })) ∧
    (st.nextCustomerId ≠ 0 →
      (customerSave st c).2.cache
        = cacheSet st.cache ("customer:" ++ toString st.nextCustomerId)
            ({ c with id := st.nextCustomerId } : Customer).toJson 3600) := by
  constructor
  · intro h0
    unfold customerSave
    simp only [h0]
    rw [if_neg (by decide)]
    norm_num
  · intro hne
    unfold customerSave
    simp only []
    rw [if_pos hne]

/-- Witness for the C10 theorem: a store whose next generated id is 0
persists the customer but leaves the cache untouched. -/
theorem save_falsy_id_skips_cache_witness :
    customerSave exStZeroId exCustomer = (.ok ({ exCustomer with id := 0 } : Customer).toJson,
      { exStZeroId with
          customers := exStZeroId.customers ++ [{ exCustomer with id := 0 }]
          nextCustomerId := 1 }) ∧
    (customerSave exStZeroId exCustomer).2.cache = exStZeroId.cache := by
  have h := (save_falsy_id_skips_cache exStZeroId exCustomer).1 rfl
  exact ⟨h, by rw [h]⟩


end Crm
